import Mathlib

/-!
Verification of the NEXUS AI authentication module (`src/js/auth.js`,
`src/js/validation.js`).

Browser `localStorage` is modelled as an explicit `Store` record holding
the three persisted slots (users, session, reset token); each JavaScript
function becomes a pure Lean function, state-passing where the original
mutates storage.  Timestamps are naturals (milliseconds); the random
token produced by `generateResetToken` and the current time are passed
as explicit arguments.
-/

namespace NexusAuth

/-- A stored user record: `{email, password, role, type, name}`. -/
structure User where
  email : String
  password : String
  role : String
  type : String
  name : String
deriving Repr, DecidableEq

/-- The sanitized user view `{email, role, type, name}` returned by the
login functions; by construction it has no password field. -/
structure SanitizedUser where
  email : String
  role : String
  type : String
  name : String
deriving Repr, DecidableEq

/-- The session record persisted under `SESSION_KEY`. -/
structure Session where
  email : String
  role : String
  type : String
  name : String
  loginTime : Nat
  expiresAt : Nat
deriving Repr, DecidableEq

/-- The reset-token record persisted under the key `nexus_reset_token`. -/
structure ResetData where
  email : String
  token : String
  expiresAt : Nat
deriving Repr, DecidableEq

/-- The relevant slots of `localStorage`: `nexus_ai_users`,
`nexus_ai_session`, `nexus_reset_token`.  `none` models an absent key. -/
structure Store where
  users : Option (List User)
  session : Option Session
  resetToken : Option ResetData
deriving Repr, DecidableEq

/-- The hard-coded demo credential list `DEMO_USERS`. -/
def DEMO_USERS : List User :=
  [ { email := "superadmin@intuvia.com", password := "Admin@123",
      role := "Super Admin", type := "enterprise", name := "John Smith" },
    { email := "admin@intuvia.com", password := "Admin@123",
      role := "Admin", type := "enterprise", name := "Sarah Johnson" },
    { email := "viewer@intuvia.com", password := "Viewer@123",
      role := "Viewer", type := "enterprise", name := "Mike Wilson" },
    { email := "user@example.com", password := "User@123",
      role := "Attendee", type := "normal", name := "Emily Davis" },
    { email := "organizer@example.com", password := "Organizer@123",
      role := "Organizer", type := "normal", name := "Alex Brown" } ]

/-- Model of `getUsers`: returns the persisted list, falling back to `DEMO_USERS`
when the key is absent. -/
def getUsers (st : Store) : List User :=
  st.users.getD DEMO_USERS

/-- Model of `saveUsers`: overwrites the users slot. -/
def saveUsers (st : Store) (users : List User) : Store :=
  { st with users := some users }

/-- Model of `initAuth`: seeds the users slot with `DEMO_USERS` when absent. -/
def initAuth (st : Store) : Store :=
  match st.users with
  | none => { st with users := some DEMO_USERS }
  | some _ => st

/-- The store right after `initAuth` runs on an empty `localStorage`. -/
def seedStore : Store :=
  { users := some DEMO_USERS, session := none, resetToken := none }

/-- JavaScript `s.toLowerCase()`, modelled per code point (structural on
the character list so that proofs can evaluate it). -/
def jsToLower (s : String) : String :=
  ⟨s.data.map Char.toLower⟩

/-- JavaScript regex `test` for a single character class: some character
of the string satisfies the predicate. -/
def strAny (s : String) (p : Char → Bool) : Bool :=
  s.data.any p

/-- JavaScript `s.length`, modelled as the character count. -/
def strLength (s : String) : Nat :=
  s.data.length

/-- JavaScript `s.endsWith(post)`. -/
def strEndsWith (s post : String) : Bool :=
  List.isSuffixOf post.data s.data

/-- Character membership in a string (for the special-symbol class). -/
def strContains (s : String) (c : Char) : Bool :=
  s.data.contains c

/-- The case-insensitive email comparison
`u.email.toLowerCase() === email.toLowerCase()` used by every lookup in
`auth.js` except the one in `loginWithGoogle`. -/
def emailMatches (u : User) (email : String) : Bool :=
  jsToLower u.email == jsToLower email

/-- The `{email, role, type, name}` projection built at every success
return of the login functions. -/
def sanitize (u : User) : SanitizedUser :=
  { email := u.email, role := u.role, type := u.type, name := u.name }

def accountNotFoundMsg : String := "No account found with this email address."
def invalidCredentialsMsg : String := "Invalid email or password. Please try again."
def invalidOrExpiredMsg : String := "Invalid or expired reset link."
def invalidLinkMsg : String := "Invalid reset link."
def linkExpiredMsg : String := "Reset link has expired. Please request a new one."
def userNotFoundMsg : String := "User not found."
def noEnterpriseMatchMsg : String := "No enterprise users found for this domain."
def resetSentMsg : String := "Password reset link sent to your email."
def passwordChangedMsg : String := "Password changed successfully. Redirecting to login..."

/-- Model of `validateLogin(email, password)`: case-insensitive lookup, then
case-sensitive password comparison, then sanitized success view. -/
def validateLogin (st : Store) (email password : String) :
    Except String SanitizedUser :=
  match (getUsers st).find? (fun u => emailMatches u email) with
  | none => .error accountNotFoundMsg
  | some user =>
    if user.password != password then .error invalidCredentialsMsg
    else .ok (sanitize user)

/-- Model of `createSession(user)`: stamps the sanitized user with
`loginTime = now` and `expiresAt = now + 24h` and overwrites the session
slot. -/
def createSession (st : Store) (user : SanitizedUser) (now : Nat) : Store :=
  let session : Session :=
    { email := user.email, role := user.role, type := user.type,
      name := user.name, loginTime := now,
      expiresAt := now + 24 * 60 * 60 * 1000 }
  { st with session := some session }

/-- Model of `logout()`: removes the session slot. -/
def logout (st : Store) : Store :=
  { st with session := none }

/-- Model of `getSession()`: returns the persisted session unless absent or
expired; an expired record is deleted on read (via `logout`). -/
def getSession (st : Store) (now : Nat) : Option Session × Store :=
  match st.session with
  | none => (none, st)
  | some sessionData =>
    if sessionData.expiresAt < now then (none, logout st)
    else (some sessionData, st)

/-- Model of `handleForgotPassword(email)`: looks the user up case-insensitively
and stores `{email, token, expiry = now + 30min}` in the single reset
slot; the freshly generated token string is an explicit argument. -/
def handleForgotPassword (st : Store) (email resetToken : String) (now : Nat) :
    Except String String × Store :=
  match (getUsers st).find? (fun u => emailMatches u email) with
  | none => (.error accountNotFoundMsg, st)
  | some user =>
    let resetData : ResetData :=
      { email := user.email, token := resetToken,
        expiresAt := now + 30 * 60 * 1000 }
    (.ok ("reset-password.html?token=" ++ resetToken),
     { st with resetToken := some resetData })

/-- Model of `validateResetToken(token)`: empty slot, token mismatch (slot kept),
expired (slot deleted), or success returning the bound email (slot
kept). -/
def validateResetToken (st : Store) (token : String) (now : Nat) :
    Except String String × Store :=
  match st.resetToken with
  | none => (.error invalidOrExpiredMsg, st)
  | some resetData =>
    if token != resetData.token then (.error invalidLinkMsg, st)
    else if resetData.expiresAt < now then
      (.error linkExpiredMsg, { st with resetToken := none })
    else (.ok resetData.email, st)

/-- The in-place update `users[userIndex].password = newPassword` after
`findIndex` on the case-insensitive email match: `none` corresponds to
`findIndex` returning `-1`. -/
def updateFirstPassword (email newPassword : String) :
    List User → Option (List User)
  | [] => none
  | u :: rest =>
    if emailMatches u email then
      some ({ u with password := newPassword } :: rest)
    else
      (updateFirstPassword email newPassword rest).map (fun l => u :: l)

/-- Model of `resetPassword(token, newPassword)`: verifies the token, rewrites the
matched user's password, persists the list and clears the token slot. -/
def resetPassword (st : Store) (token newPassword : String) (now : Nat) :
    Except String String × Store :=
  match validateResetToken st token now with
  | (.error e, st1) => (.error e, st1)
  | (.ok email, st1) =>
    match updateFirstPassword email newPassword (getUsers st1) with
    | none => (.error userNotFoundMsg, st1)
    | some users1 =>
      (.ok passwordChangedMsg,
       { saveUsers st1 users1 with resetToken := none })

/-- Model of `loginWithSSO(domain)`: filters for enterprise users whose email ends
with `@domain` and returns the first match's sanitized view (the timer
delay carries no data and is not modelled). -/
def loginWithSSO (st : Store) (domain : String) :
    Except String SanitizedUser :=
  match (getUsers st).filter
      (fun u => u.type == "enterprise" && strEndsWith u.email ("@" ++ domain)) with
  | [] => .error noEnterpriseMatchMsg
  | user :: _ => .ok (sanitize user)

/-- Model of `loginWithGoogle(selectedEmail)`: exact (case-sensitive) lookup of
the hint email, else first `normal` user, else a synthesized transient
user; always succeeds and never writes, so the store is returned
unchanged. -/
def loginWithGoogle (st : Store) (selectedEmail : Option String) :
    SanitizedUser × Store :=
  let users := getUsers st
  let found :=
    match selectedEmail with
    | some e => users.find? (fun u => u.email == e)
    | none => users.find? (fun u => u.type == "normal")
  match found with
  | some user => (sanitize user, st)
  | none =>
    ({ email := selectedEmail.getD "google.user@gmail.com",
       role := "Attendee", type := "normal", name := "Google User" }, st)

/-- The five requirement flags computed by `checkPasswordStrength`. -/
structure StrengthRequirements where
  minLength : Bool
  hasUppercase : Bool
  hasLowercase : Bool
  hasNumber : Bool
  hasSpecial : Bool
deriving Repr, DecidableEq

/-- The result shape `{requirements, strength, allMet, score}`. -/
structure StrengthResult where
  requirements : StrengthRequirements
  strength : String
  allMet : Bool
  score : Nat
deriving Repr, DecidableEq

/-- The character class of the regex `PATTERNS.password.hasSpecial`. -/
def passwordSpecialChars : String := "!@#$%^&*(),.?\":\x7b\x7d|<>"

/-- Model of `checkPasswordStrength(password)` from `src/js/validation.js`: five
boolean requirements, their count as score, and the strength label. -/
def checkPasswordStrength (password : String) : StrengthResult :=
  let requirements : StrengthRequirements :=
    { minLength := strLength password ≥ 8,
      hasUppercase := strAny password (fun c => 'A' ≤ c && c ≤ 'Z'),
      hasLowercase := strAny password (fun c => 'a' ≤ c && c ≤ 'z'),
      hasNumber := strAny password (fun c => '0' ≤ c && c ≤ '9'),
      hasSpecial := strAny password (fun c => strContains passwordSpecialChars c) }
  let metCount :=
    ([requirements.minLength, requirements.hasUppercase,
      requirements.hasLowercase, requirements.hasNumber,
      requirements.hasSpecial].filter id).length
  let strength :=
    if metCount ≤ 2 then "weak"
    else if metCount ≤ 4 then "medium"
    else "strong"
  { requirements := requirements, strength := strength,
    allMet := metCount == 5, score := metCount }

/-- A sample store carrying an active reset token, used to instantiate
the reset-flow theorems at concrete inputs. -/
def sampleResetStore : Store :=
  { seedStore with resetToken := some ⟨"user@example.com", "tok", 1000⟩ }

/-- A sample store carrying a session that expires at time 5. -/
def sampleSessionStore : Store :=
  { seedStore with session := some ⟨"user@example.com", "Attendee", "normal", "Emily Davis", 0, 5⟩ }

/-- The number of the five password requirements a string satisfies,
written from the claim's wording (length at least 8, an uppercase
letter, a lowercase letter, a digit, a symbol from the fixed punctuation
set), independently of `checkPasswordStrength`. -/
def specRequirementCount (s : String) : Nat :=
  (if 8 ≤ strLength s then 1 else 0)
  + (if ∃ c ∈ s.data, 'A' ≤ c ∧ c ≤ 'Z' then 1 else 0)
  + (if ∃ c ∈ s.data, 'a' ≤ c ∧ c ≤ 'z' then 1 else 0)
  + (if ∃ c ∈ s.data, '0' ≤ c ∧ c ≤ '9' then 1 else 0)
  + (if ∃ c ∈ s.data, c ∈ passwordSpecialChars.data then 1 else 0)

/-! ### Helper lemmas -/

theorem updateFirstPassword_of_find? (e q : String) :
    ∀ (l : List User) (u : User),
      l.find? (fun v => emailMatches v e) = some u →
      ∃ l₁ l₂, l = l₁ ++ u :: l₂
        ∧ (∀ v ∈ l₁, emailMatches v e = false)
        ∧ updateFirstPassword e q l = some (l₁ ++ ({ u with password := q }) :: l₂) := by
  intro l
  induction l with
  | nil => intro u h; simp [List.find?] at h
  | cons a as ih =>
    intro u h
    by_cases ha : emailMatches a e
    · rw [List.find?_cons_of_pos (p := fun v => emailMatches v e) _ ha] at h
      cases h
      exact ⟨[], as, rfl, by simp, by simp [updateFirstPassword, ha]⟩
    · rw [List.find?_cons_of_neg _ (by simpa using ha)] at h
      obtain ⟨l₁, l₂, hdec, hl₁, hupd⟩ := ih u h
      refine ⟨a :: l₁, l₂, by simp [hdec], ?_, ?_⟩
      · intro v hv
        rcases List.mem_cons.mp hv with hv | hv
        · subst hv; simpa using ha
        · exact hl₁ v hv
      · simp [updateFirstPassword, ha, hupd]

theorem updateFirstPassword_some (e q : String) :
    ∀ (l l' : List User), updateFirstPassword e q l = some l' →
      ∃ l₁ u l₂, l = l₁ ++ u :: l₂
        ∧ l' = l₁ ++ ({ u with password := q }) :: l₂
        ∧ emailMatches u e = true
        ∧ ∀ v ∈ l₁, emailMatches v e = false := by
  intro l
  induction l with
  | nil => intro l' h; simp [updateFirstPassword] at h
  | cons a as ih =>
    intro l' h
    by_cases ha : emailMatches a e
    · simp [updateFirstPassword, ha] at h
      exact ⟨[], a, as, rfl, h.symm, ha, by simp⟩
    · simp [updateFirstPassword, ha] at h
      obtain ⟨l'', h1, h2⟩ := h
      obtain ⟨l₁, u, l₂, hdec, hdec', hu, hl₁⟩ := ih l'' h1
      refine ⟨a :: l₁, u, l₂, by simp [hdec], by simp [← h2, hdec'], hu, ?_⟩
      intro v hv
      rcases List.mem_cons.mp hv with hv | hv
      · subst hv; simpa using ha
      · exact hl₁ v hv

theorem find?_updated (e q : String) (l₁ l₂ : List User) (u : User)
    (hl₁ : ∀ v ∈ l₁, emailMatches v e = false)
    (hu : emailMatches u e = true) :
    (l₁ ++ ({ u with password := q }) :: l₂).find? (fun v => emailMatches v e)
      = some ({ u with password := q }) := by
  induction l₁ with
  | nil =>
    simpa [List.find?_cons] using List.find?_cons_of_pos (p := fun v => emailMatches v e)
      (l := l₂) (show emailMatches ({ u with password := q }) e = true from hu)
  | cons a as ih =>
    have ha : emailMatches a e = false := hl₁ a (List.mem_cons_self a as)
    rw [List.cons_append, List.find?_cons_of_neg _ (by simp [ha])]
    exact ih (fun v hv => hl₁ v (List.mem_cons_of_mem a hv))

theorem filter_head_eq_find? (p : User → Bool) :
    ∀ l : List User, (l.filter p).head? = l.find? p := by
  intro l
  induction l with
  | nil => rfl
  | cons a as ih =>
    by_cases h : p a <;> simp [List.filter_cons, List.find?_cons, h, ih]

/-! ### C1 -/

/-- Claim C1: `validateLogin` returns the account-not-found failure when
no stored user's email matches the given one case-insensitively, the
invalid-credentials failure when the first matching user's stored
password differs (case-sensitively) from the given one, and otherwise a
sanitized `{email, role, type, name}` view of that user (a
`SanitizedUser` has no password field by construction). -/
theorem C1_validateLogin_spec (st : Store) (email password : String) :
    ((∀ u ∈ getUsers st, emailMatches u email = false) →
      validateLogin st email password = Except.error accountNotFoundMsg)
    ∧ (∀ u, (getUsers st).find? (fun v => emailMatches v email) = some u →
        (u.password ≠ password →
          validateLogin st email password = Except.error invalidCredentialsMsg)
        ∧ (u.password = password →
          validateLogin st email password = Except.ok (sanitize u))) := by
  refine ⟨fun h => ?_, fun u hu => ⟨fun hne => ?_, fun heq => ?_⟩⟩
  · have hnone : (getUsers st).find? (fun v => emailMatches v email) = none :=
      List.find?_eq_none.mpr (fun x hx => by simp [h x hx])
    simp [validateLogin, hnone]
  · simp [validateLogin, hu, bne_iff_ne, hne]
  · simp [validateLogin, hu, heq]

/-- Witness for C1: the seeded user logs in with a case-varied email and
the correct password. -/
theorem C1_validateLogin_spec_witness :
    validateLogin seedStore "USER@EXAMPLE.COM" "User@123" =
      Except.ok { email := "user@example.com", role := "Attendee",
                  type := "normal", name := "Emily Davis" } :=
  ((C1_validateLogin_spec seedStore "USER@EXAMPLE.COM" "User@123").2
    { email := "user@example.com", password := "User@123", role := "Attendee",
      type := "normal", name := "Emily Davis" } (by decide)).2 rfl

/-! ### C3 -/

/-- Claim C3: `validateResetToken` fails with the no-active-request
message when the slot is empty, fails with the mismatch message leaving
the slot in place when the token differs, deletes the slot and fails
with the expired message when the token matches but the stored expiry is
before now, and otherwise succeeds with the bound email leaving the
store unchanged — so verifying the same valid token twice yields the
same success both times. -/
theorem C3_validateResetToken_spec (st : Store) (t : String) (now : Nat) :
    (st.resetToken = none →
      validateResetToken st t now = (Except.error invalidOrExpiredMsg, st))
    ∧ (∀ rd, st.resetToken = some rd →
        (t ≠ rd.token →
          validateResetToken st t now = (Except.error invalidLinkMsg, st))
        ∧ (t = rd.token → rd.expiresAt < now →
          validateResetToken st t now =
            (Except.error linkExpiredMsg, { st with resetToken := none }))
        ∧ (t = rd.token → ¬ rd.expiresAt < now →
          validateResetToken st t now = (Except.ok rd.email, st)
          ∧ validateResetToken (validateResetToken st t now).2 t now =
              validateResetToken st t now)) := by
  refine ⟨fun h => ?_,
    fun rd hrd => ⟨fun hne => ?_, fun heq hexp => ?_, fun heq hexp => ?_⟩⟩
  · simp [validateResetToken, h]
  · simp [validateResetToken, hrd, bne_iff_ne, hne]
  · subst heq; simp [validateResetToken, hrd, hexp]
  · subst heq
    have hok : validateResetToken st rd.token now = (Except.ok rd.email, st) := by
      simp [validateResetToken, hrd, hexp]
    exact ⟨hok, by simp [hok]⟩

/-- Witness for C3: verifying the stored token of `sampleResetStore`
before its expiry succeeds and leaves the store unchanged. -/
theorem C3_validateResetToken_spec_witness :
    validateResetToken sampleResetStore "tok" 0 =
      (Except.ok "user@example.com", sampleResetStore) :=
  (((C3_validateResetToken_spec sampleResetStore "tok" 0).2
    ⟨"user@example.com", "tok", 1000⟩ rfl).2.2 rfl (by decide)).1

/-! ### C4 -/

/-- Claim C4: `getSession` right after `createSession u` returns a
record carrying `u`'s email, role, type and name with `expiresAt` set
24 hours (86 400 000 ms) after creation; a stored session whose expiry
is before now is deleted by `getSession`, which then reports no session;
and a non-expired session is returned with the store untouched. -/
theorem C4_session_spec (st : Store) (u : SanitizedUser) (now now2 : Nat) :
    (getSession (createSession st u now) now =
      (some { email := u.email, role := u.role, type := u.type, name := u.name,
              loginTime := now, expiresAt := now + 24 * 60 * 60 * 1000 },
       createSession st u now))
    ∧ (∀ s, st.session = some s → s.expiresAt < now2 →
        getSession st now2 = (none, { st with session := none }))
    ∧ (∀ s, st.session = some s → ¬ s.expiresAt < now2 →
        getSession st now2 = (some s, st)) := by
  refine ⟨?_, fun s hs hexp => ?_, fun s hs hexp => ?_⟩
  · have h : ¬ (now + 24 * 60 * 60 * 1000 < now) := by omega
    simp [createSession, getSession, h]
  · simp [getSession, hs, hexp, logout]
  · simp [getSession, hs, hexp]

/-- Witness for C4: reading `sampleSessionStore` past its expiry deletes
the session slot and reports no session. -/
theorem C4_session_spec_witness :
    getSession sampleSessionStore 10 =
      (none, { sampleSessionStore with session := none }) :=
  (C4_session_spec sampleSessionStore
    ⟨"user@example.com", "Attendee", "normal", "Emily Davis"⟩ 0 10).2.1
    ⟨"user@example.com", "Attendee", "normal", "Emily Davis", 0, 5⟩ (by rfl) (by decide)

/-! ### C2 -/

/-- Counterexample to C2 as stated: with the new password equal to the
old one (`q = p = "User@123"`), the reset succeeds and `login(e, p)`
afterwards still succeeds — it does not fail with the
invalid-credentials error. -/
theorem C2_counterexample :
    (resetPassword (handleForgotPassword seedStore "user@example.com" "tokX" 0).2
        "tokX" "User@123" 0).1 = Except.ok passwordChangedMsg
    ∧ validateLogin
        (resetPassword (handleForgotPassword seedStore "user@example.com" "tokX" 0).2
          "tokX" "User@123" 0).2
        "user@example.com" "User@123" =
      Except.ok { email := "user@example.com", role := "Attendee",
                  type := "normal", name := "Emily Davis" } :=
  ⟨rfl, rfl⟩

/-- Claim C2 (amended): for a user `u` who is the first case-insensitive
match for their own email — in particular every seeded user — and any
token `t`, new password `q` and times within the 30-minute window,
`requestReset` succeeds, `resetPassword` succeeds, the token slot is
deleted, `login(u.email, q)` succeeds, and — provided `q` differs from
the old password — `login(u.email, old)` fails with the
invalid-credentials error; moreover any failure of `verifyToken` or of
the password update is returned unchanged by `resetPassword`. -/
theorem C2_reset_password_flow (st : Store) (u : User) (t q : String)
    (now1 now2 : Nat)
    (hfind : (getUsers st).find? (fun v => emailMatches v u.email) = some u)
    (htime : now2 ≤ now1 + 30 * 60 * 1000) :
    (handleForgotPassword st u.email t now1).1 =
        Except.ok ("reset-password.html?token=" ++ t)
    ∧ (resetPassword (handleForgotPassword st u.email t now1).2 t q now2).1 =
        Except.ok passwordChangedMsg
    ∧ (resetPassword (handleForgotPassword st u.email t now1).2 t q now2).2.resetToken
        = none
    ∧ validateLogin
        (resetPassword (handleForgotPassword st u.email t now1).2 t q now2).2
        u.email q = Except.ok (sanitize u)
    ∧ (q ≠ u.password →
        validateLogin
          (resetPassword (handleForgotPassword st u.email t now1).2 t q now2).2
          u.email u.password = Except.error invalidCredentialsMsg)
    ∧ (∀ st' e', (validateResetToken st' t now2).1 = Except.error e' →
        (resetPassword st' t q now2).1 = Except.error e')
    ∧ (∀ st' em, validateResetToken st' t now2 = (Except.ok em, st') →
        updateFirstPassword em q (getUsers st') = none →
        (resetPassword st' t q now2).1 = Except.error userNotFoundMsg) := by
  have hmatch : emailMatches u u.email = true :=
    List.find?_some (p := fun v => emailMatches v u.email) hfind
  obtain ⟨l₁, l₂, hdec, hl₁, hupd⟩ :=
    updateFirstPassword_of_find? u.email q (getUsers st) u hfind
  have hforgot : handleForgotPassword st u.email t now1 =
      (Except.ok ("reset-password.html?token=" ++ t),
       { st with resetToken := some ⟨u.email, t, now1 + 30 * 60 * 1000⟩ }) := by
    simp [handleForgotPassword, hfind]
  have hnotexp : ¬ (now1 + 30 * 60 * 1000 < now2) := by omega
  have hval : validateResetToken
      { st with resetToken := some ⟨u.email, t, now1 + 30 * 60 * 1000⟩ } t now2 =
      (Except.ok u.email,
       { st with resetToken := some ⟨u.email, t, now1 + 30 * 60 * 1000⟩ }) := by
    simp [validateResetToken, hnotexp]
  have hupd' : updateFirstPassword u.email q
      (getUsers { st with resetToken := some ⟨u.email, t, now1 + 30 * 60 * 1000⟩ })
      = some (l₁ ++ ({ u with password := q }) :: l₂) := hupd
  have hreset : resetPassword
      { st with resetToken := some ⟨u.email, t, now1 + 30 * 60 * 1000⟩ } t q now2 =
      (Except.ok passwordChangedMsg,
       { st with users := some (l₁ ++ ({ u with password := q }) :: l₂),
                 resetToken := none }) := by
    unfold resetPassword
    split
    · next e s heq => rw [hval] at heq; simp at heq
    · next em s heq =>
      rw [hval] at heq
      injection heq with h1 h2
      injection h1 with h1
      subst h1
      subst h2
      rw [hupd']
      rfl
  have hfind2 := find?_updated u.email q l₁ l₂ u hl₁ hmatch
  have hlogin1 : validateLogin
      { st with users := some (l₁ ++ ({ u with password := q }) :: l₂),
                resetToken := none } u.email q = Except.ok (sanitize u) := by
    simp [validateLogin, getUsers, hfind2, sanitize]
  refine ⟨by rw [hforgot], ?_, ?_, ?_, ?_, ?_, ?_⟩
  · rw [hforgot, hreset]
  · rw [hforgot, hreset]
  · rw [hforgot, hreset]; exact hlogin1
  · intro hq
    rw [hforgot, hreset]
    simp [validateLogin, getUsers, hfind2, bne_iff_ne, hq]
  · intro st' e' h
    unfold resetPassword
    split
    · next e s heq =>
      rw [heq] at h
      simpa using h
    · next em s heq =>
      rw [heq] at h
      simp at h
  · intro st' em h hupd0
    unfold resetPassword
    split
    · next e s heq => rw [h] at heq; simp at heq
    · next em' s heq =>
      rw [h] at heq
      injection heq with h1 h2
      injection h1 with h1
      subst h1
      subst h2
      rw [hupd0]

/-- Witness for C2: the seeded normal user resets to `"NewPass1!"` and
the old password is then rejected. -/
theorem C2_reset_password_flow_witness :
    validateLogin
      (resetPassword (handleForgotPassword seedStore "user@example.com" "tok" 0).2
        "tok" "NewPass1!" 0).2
      "user@example.com" "User@123" = Except.error invalidCredentialsMsg :=
  ((C2_reset_password_flow seedStore
      { email := "user@example.com", password := "User@123", role := "Attendee",
        type := "normal", name := "Emily Davis" }
      "tok" "NewPass1!" 0 0 (by decide) (by decide)).2.2.2.2.1 (by decide))

/-! ### C5 -/

/-- Claim C5: the reset-token slot is single: after two successive
successful `requestReset` calls storing tokens `t1` then `t2` with
`t1 ≠ t2`, verifying the first token fails with the mismatch error. -/
theorem C5_token_single_slot (st : Store) (e1 e2 t1 t2 : String)
    (n1 n2 n3 : Nat) (hne : t1 ≠ t2)
    (h1 : ∃ m, (handleForgotPassword st e1 t1 n1).1 = Except.ok m)
    (h2 : ∃ m, (handleForgotPassword (handleForgotPassword st e1 t1 n1).2
        e2 t2 n2).1 = Except.ok m) :
    (validateResetToken
      (handleForgotPassword (handleForgotPassword st e1 t1 n1).2 e2 t2 n2).2
      t1 n3).1 = Except.error invalidLinkMsg := by
  obtain ⟨m2, h2⟩ := h2
  set st1 := (handleForgotPassword st e1 t1 n1).2 with hst1
  cases hf : (getUsers st1).find? (fun v => emailMatches v e2) with
  | none =>
    rw [show handleForgotPassword st1 e2 t2 n2 =
        (Except.error accountNotFoundMsg, st1) from
      by simp [handleForgotPassword, hf]] at h2
    simp at h2
  | some u =>
    rw [show handleForgotPassword st1 e2 t2 n2 =
        (Except.ok ("reset-password.html?token=" ++ t2),
         { st1 with resetToken := some ⟨u.email, t2, n2 + 30 * 60 * 1000⟩ }) from
      by simp [handleForgotPassword, hf]]
    simp [validateResetToken, bne_iff_ne, hne]

/-- Witness for C5: two requests for the seeded user with distinct
tokens; the first token is then rejected. -/
theorem C5_token_single_slot_witness :
    (validateResetToken
      (handleForgotPassword
        (handleForgotPassword seedStore "user@example.com" "tokA" 0).2
        "user@example.com" "tokB" 0).2
      "tokA" 0).1 = Except.error invalidLinkMsg :=
  C5_token_single_slot seedStore "user@example.com" "user@example.com"
    "tokA" "tokB" 0 0 0 (by decide) ⟨_, rfl⟩ ⟨_, rfl⟩

/-! ### C6 -/

/-- Claim C6: `loginWithSSO d` fails with the no-enterprise-match error
exactly when no stored user is an enterprise user whose email ends in
`"@" ++ d`; otherwise it returns the sanitized view of the first such
user in store order; on the seed list, `"intuvia.com"` yields the Super
Admin record and `"nomatch.com"` fails. -/
theorem C6_loginWithSSO_spec (st : Store) (d : String) :
    (loginWithSSO st d = Except.error noEnterpriseMatchMsg ↔
      ∀ u ∈ getUsers st,
        ¬ (u.type = "enterprise" ∧ strEndsWith u.email ("@" ++ d) = true))
    ∧ (∀ u, (getUsers st).find?
          (fun v => v.type == "enterprise" && strEndsWith v.email ("@" ++ d))
          = some u →
        loginWithSSO st d = Except.ok (sanitize u))
    ∧ loginWithSSO seedStore "intuvia.com" =
        Except.ok { email := "superadmin@intuvia.com", role := "Super Admin",
                    type := "enterprise", name := "John Smith" }
    ∧ loginWithSSO seedStore "nomatch.com" = Except.error noEnterpriseMatchMsg := by
  refine ⟨?_, ?_, by rfl, by rfl⟩
  · cases hf : (getUsers st).filter
        (fun v => v.type == "enterprise" && strEndsWith v.email ("@" ++ d)) with
    | nil =>
      have hall := List.filter_eq_nil_iff.mp hf
      refine iff_of_true (by simp [loginWithSSO, hf]) ?_
      intro u hu hcontra
      exact absurd (by simp [hcontra.1, hcontra.2]) (hall u hu)
    | cons a rest =>
      have hsso : loginWithSSO st d = Except.ok (sanitize a) := by
        simp [loginWithSSO, hf]
      refine iff_of_false (by simp [hsso]) ?_
      intro hall
      have ha : a ∈ (getUsers st).filter
          (fun v => v.type == "enterprise" && strEndsWith v.email ("@" ++ d)) :=
        hf ▸ List.mem_cons_self a rest
      have hmem := List.mem_filter.mp ha
      have hp := hmem.2
      simp only [Bool.and_eq_true, beq_iff_eq] at hp
      exact hall a hmem.1 ⟨hp.1, hp.2⟩
  · intro u hu
    rw [← filter_head_eq_find?] at hu
    unfold loginWithSSO
    cases hf : (getUsers st).filter
        (fun v => v.type == "enterprise" && strEndsWith v.email ("@" ++ d)) with
    | nil => rw [hf] at hu; simp at hu
    | cons a rest =>
      rw [hf] at hu
      simp only [List.head?_cons, Option.some.injEq] at hu
      subst hu
      rfl

/-- Witness for C6: the first enterprise match for `"intuvia.com"` in
seed order is the Super Admin record. -/
theorem C6_loginWithSSO_spec_witness :
    loginWithSSO seedStore "intuvia.com" =
      Except.ok { email := "superadmin@intuvia.com", role := "Super Admin",
                  type := "enterprise", name := "John Smith" } :=
  (C6_loginWithSSO_spec seedStore "intuvia.com").2.1
    { email := "superadmin@intuvia.com", password := "Admin@123",
      role := "Super Admin", type := "enterprise", name := "John Smith" }
    (by decide)

/-! ### C7 -/

theorem count_five (a b c d e : Bool) :
    ([a, b, c, d, e].filter id).length =
      (if a = true then 1 else 0) + (if b = true then 1 else 0)
      + (if c = true then 1 else 0) + (if d = true then 1 else 0)
      + (if e = true then 1 else 0) := by
  cases a <;> cases b <;> cases c <;> cases d <;> cases e <;> rfl

theorem strength_label (n : Nat) (hn : n ≤ 5) :
    ((if n ≤ 2 then "weak" else if n ≤ 4 then "medium" else "strong")
        = "weak" ↔ n ≤ 2)
    ∧ ((if n ≤ 2 then "weak" else if n ≤ 4 then "medium" else "strong")
        = "medium" ↔ n = 3 ∨ n = 4)
    ∧ ((if n ≤ 2 then "weak" else if n ≤ 4 then "medium" else "strong")
        = "strong" ↔ n = 5) := by
  by_cases h1 : n ≤ 2 <;> by_cases h2 : n ≤ 4 <;>
    simp [h1, h2] <;> omega

/-- Claim C7: `checkPasswordStrength` scores the number of the five
requirements satisfied, labels `weak` iff the score is at most 2,
`medium` iff it is 3 or 4, `strong` iff it is 5, sets `allMet` iff the
score is 5; the empty string scores 0 (`weak`) and `"Abcdef1!"` scores 5
(`strong`). -/
theorem C7_checkPasswordStrength_spec (s : String) :
    (checkPasswordStrength s).score = specRequirementCount s
    ∧ ((checkPasswordStrength s).strength = "weak" ↔
        (checkPasswordStrength s).score ≤ 2)
    ∧ ((checkPasswordStrength s).strength = "medium" ↔
        ((checkPasswordStrength s).score = 3 ∨ (checkPasswordStrength s).score = 4))
    ∧ ((checkPasswordStrength s).strength = "strong" ↔
        (checkPasswordStrength s).score = 5)
    ∧ ((checkPasswordStrength s).allMet = true ↔
        (checkPasswordStrength s).score = 5)
    ∧ (checkPasswordStrength "").score = 0
    ∧ (checkPasswordStrength "").strength = "weak"
    ∧ (checkPasswordStrength "Abcdef1!").score = 5
    ∧ (checkPasswordStrength "Abcdef1!").strength = "strong" := by
  have hle : (checkPasswordStrength s).score ≤ 5 := by
    simp only [checkPasswordStrength]
    exact le_trans (List.length_filter_le _ _) (by simp)
  obtain ⟨hw, hm, hs5⟩ := strength_label (checkPasswordStrength s).score hle
  have hstr : (checkPasswordStrength s).strength =
      (if (checkPasswordStrength s).score ≤ 2 then "weak"
       else if (checkPasswordStrength s).score ≤ 4 then "medium"
       else "strong") := rfl
  have hallMet : (checkPasswordStrength s).allMet =
      ((checkPasswordStrength s).score == 5) := rfl
  refine ⟨?_, ?_, ?_, ?_, ?_, by decide, by decide, by decide, by decide⟩
  · have e1 : ((decide (strLength s ≥ 8)) = true) ↔ 8 ≤ strLength s := by
      simp [ge_iff_le]
    have e2 : (strAny s (fun c => 'A' ≤ c && c ≤ 'Z') = true) ↔
        ∃ c ∈ s.data, 'A' ≤ c ∧ c ≤ 'Z' := by
      simp [strAny]
    have e3 : (strAny s (fun c => 'a' ≤ c && c ≤ 'z') = true) ↔
        ∃ c ∈ s.data, 'a' ≤ c ∧ c ≤ 'z' := by
      simp [strAny]
    have e4 : (strAny s (fun c => '0' ≤ c && c ≤ '9') = true) ↔
        ∃ c ∈ s.data, '0' ≤ c ∧ c ≤ '9' := by
      simp [strAny]
    have e5 : (strAny s (fun c => strContains passwordSpecialChars c) = true) ↔
        ∃ c ∈ s.data, c ∈ passwordSpecialChars.data := by
      simp [strAny, strContains]
    simp only [checkPasswordStrength]
    rw [count_five]
    unfold specRequirementCount
    rw [if_congr e1 rfl rfl, if_congr e2 rfl rfl, if_congr e3 rfl rfl,
        if_congr e4 rfl rfl, if_congr e5 rfl rfl]
  · rw [hstr]; exact hw
  · rw [hstr]; exact hm
  · rw [hstr]; exact hs5
  · rw [hallMet]; simp

/-! ### Inversion helpers for the reset flow -/

theorem prod_eta_fst {α β : Type} (p : α × β) (x : α) (h : p.1 = x) :
    p = (x, p.2) := by
  rw [← h]

theorem resetPassword_of_validate_error (st s : Store) (t q e : String) (now : Nat)
    (hv : validateResetToken st t now = (Except.error e, s)) :
    resetPassword st t q now = (Except.error e, s) := by
  unfold resetPassword
  split
  · next e' s' heq =>
    rw [hv] at heq
    injection heq with h1 h2
    injection h1 with h1
    subst h1
    subst h2
    rfl
  · next em s' heq =>
    rw [hv] at heq
    simp at heq

theorem resetPassword_of_validate_ok (st s : Store) (t q em : String) (now : Nat)
    (hv : validateResetToken st t now = (Except.ok em, s)) :
    resetPassword st t q now =
      match updateFirstPassword em q (getUsers s) with
      | none => (Except.error userNotFoundMsg, s)
      | some users1 =>
        (Except.ok passwordChangedMsg,
         { saveUsers s users1 with resetToken := none }) := by
  unfold resetPassword
  split
  · next e' s' heq =>
    rw [hv] at heq
    simp at heq
  · next em' s' heq =>
    rw [hv] at heq
    injection heq with h1 h2
    injection h1 with h1
    subst h1
    subst h2
    rfl

theorem validateResetToken_ok_inv (st : Store) (t : String) (now : Nat)
    (em : String) (s : Store)
    (h : validateResetToken st t now = (Except.ok em, s)) :
    s = st ∧ ∃ rd, st.resetToken = some rd ∧ rd.email = em
      ∧ t = rd.token ∧ ¬ rd.expiresAt < now := by
  rcases hrt : st.resetToken with _ | rd
  · simp [validateResetToken, hrt] at h
  · by_cases hb : t = rd.token
    · by_cases hexp : rd.expiresAt < now
      · simp [validateResetToken, hrt, bne_iff_ne, hb, hexp] at h
      · simp [validateResetToken, hrt, bne_iff_ne, hb, hexp] at h
        exact ⟨h.2.symm, rd, rfl, h.1, hb, hexp⟩
    · simp [validateResetToken, hrt, bne_iff_ne, hb] at h

theorem find?_isSome_of_mem {p : User → Bool} :
    ∀ (l : List User) (w : User), w ∈ l → p w = true →
      ∃ u, l.find? p = some u := by
  intro l
  induction l with
  | nil => intro w hw; simp at hw
  | cons a as ih =>
    intro w hw hpw
    by_cases ha : p a
    · exact ⟨a, List.find?_cons_of_pos as ha⟩
    · rcases List.mem_cons.mp hw with hw | hw
      · subst hw; exact absurd hpw ha
      · obtain ⟨u, hu⟩ := ih w hw hpw
        exact ⟨u, by rw [List.find?_cons_of_neg as (by simpa using ha)]; exact hu⟩

/-! ### C8 -/

/-- Claim C8: a successful `resetPassword` rewrites only the password of
the first user matching the token's bound email case-insensitively:
the user list decomposes as `l₁ ++ u :: l₂` with no match in `l₁`, the
persisted list is `l₁ ++ (u with new password) :: l₂`, and the matched
record keeps its email, role, type and name. -/
theorem C8_reset_frame (st : Store) (t q : String) (now : Nat) (m : String)
    (h : (resetPassword st t q now).1 = Except.ok m) :
    ∃ rd l₁ u l₂,
      st.resetToken = some rd
      ∧ getUsers st = l₁ ++ u :: l₂
      ∧ getUsers (resetPassword st t q now).2
          = l₁ ++ ({ u with password := q }) :: l₂
      ∧ emailMatches u rd.email = true
      ∧ (∀ v ∈ l₁, emailMatches v rd.email = false)
      ∧ ({ u with password := q }).email = u.email
      ∧ ({ u with password := q }).role = u.role
      ∧ ({ u with password := q }).type = u.type
      ∧ ({ u with password := q }).name = u.name
      ∧ ({ u with password := q }).password = q := by
  cases hr : (validateResetToken st t now).1 with
  | error e =>
    have hv := prod_eta_fst (validateResetToken st t now) _ hr
    rw [resetPassword_of_validate_error st _ t q e now hv] at h
    simp at h
  | ok em =>
    have hv := prod_eta_fst (validateResetToken st t now) _ hr
    obtain ⟨hs, rd, hrd, hem, htok, hexp⟩ :=
      validateResetToken_ok_inv st t now em _ hv
    have hres := resetPassword_of_validate_ok st _ t q em now hv
    rw [hs] at hres
    cases hupd : updateFirstPassword em q (getUsers st) with
    | none =>
      rw [hupd] at hres
      have hres' : resetPassword st t q now = (Except.error userNotFoundMsg, st) := hres
      rw [hres'] at h
      simp at h
    | some users1 =>
      rw [hupd] at hres
      have hres' : resetPassword st t q now =
          (Except.ok passwordChangedMsg,
           { st with users := some users1, resetToken := none }) := hres
      obtain ⟨l₁, u, l₂, hdec, hl', hu, hl₁⟩ :=
        updateFirstPassword_some em q (getUsers st) users1 hupd
      refine ⟨rd, l₁, u, l₂, hrd, hdec, ?_, ?_, ?_, rfl, rfl, rfl, rfl, rfl⟩
      · rw [hres', hl']
        rfl
      · rw [hem]; exact hu
      · intro v hv'
        rw [hem]
        exact hl₁ v hv'

/-- Witness for C8: a successful reset on `sampleResetStore`. -/
theorem C8_reset_frame_witness :
    ∃ rd l₁ u l₂,
      sampleResetStore.resetToken = some rd
      ∧ getUsers sampleResetStore = l₁ ++ u :: l₂
      ∧ getUsers (resetPassword sampleResetStore "tok" "NewPass1!" 0).2
          = l₁ ++ ({ u with password := "NewPass1!" }) :: l₂
      ∧ emailMatches u rd.email = true
      ∧ (∀ v ∈ l₁, emailMatches v rd.email = false)
      ∧ ({ u with password := "NewPass1!" }).email = u.email
      ∧ ({ u with password := "NewPass1!" }).role = u.role
      ∧ ({ u with password := "NewPass1!" }).type = u.type
      ∧ ({ u with password := "NewPass1!" }).name = u.name
      ∧ ({ u with password := "NewPass1!" }).password = "NewPass1!" :=
  C8_reset_frame sampleResetStore "tok" "NewPass1!" 0 passwordChangedMsg (by rfl)

/-! ### C9 -/

/-- Claim C9: the hint-email lookup in `loginWithGoogle` is
case-sensitive: for a stored user `u` (stored emails being
case-insensitively unique, as the seeded store is and stays, since only
passwords are ever rewritten) and a hint `h` equal to `u.email` up to
letter case but not as a string, the lookup misses, and the call returns
the synthesized transient user on the hint email with the store
unchanged. -/
theorem C9_google_hint_case_sensitive (st : Store) (u : User) (h : String)
    (hmem : u ∈ getUsers st)
    (hinj : ∀ v ∈ getUsers st, ∀ w ∈ getUsers st,
        jsToLower v.email = jsToLower w.email → v.email = w.email)
    (hcase : jsToLower h = jsToLower u.email)
    (hne : h ≠ u.email) :
    loginWithGoogle st (some h) =
      ({ email := h, role := "Attendee", type := "normal",
         name := "Google User" }, st) := by
  have hfind : (getUsers st).find? (fun v => v.email == h) = none := by
    refine List.find?_eq_none.mpr (fun v hv => ?_)
    intro hvh
    have hveq : v.email = h := by simpa using hvh
    have hvu : v.email = u.email := hinj v hv u hmem (by rw [hveq, hcase])
    exact hne (hveq ▸ hvu)
  simp [loginWithGoogle, hfind]

/-- Witness for C9: the seed store with the hint
`"USER@example.com"` (a case variant of the stored
`"user@example.com"`). -/
theorem C9_google_hint_case_sensitive_witness :
    loginWithGoogle seedStore (some "USER@example.com") =
      ({ email := "USER@example.com", role := "Attendee", type := "normal",
         name := "Google User" }, seedStore) :=
  C9_google_hint_case_sensitive seedStore
    ⟨"user@example.com", "User@123", "Attendee", "normal", "Emily Davis"⟩
    "USER@example.com" (by decide) (by decide) (by decide) (by decide)

/-! ### C10 -/

/-- Claim C10: `resetPassword` applies no format or strength check to
the new password: with an active, matching, unexpired token bound to a
stored user's email, resetting to any string `q` — the empty string
included — succeeds and persists exactly `q` as that user's password. -/
theorem C10_reset_no_validation (st : Store) (rd : ResetData) (q : String)
    (now : Nat)
    (hslot : st.resetToken = some rd)
    (hexp : ¬ rd.expiresAt < now)
    (hmem : ∃ u ∈ getUsers st, emailMatches u rd.email = true) :
    ∃ l₁ u l₂,
      getUsers st = l₁ ++ u :: l₂
      ∧ emailMatches u rd.email = true
      ∧ resetPassword st rd.token q now =
          (Except.ok passwordChangedMsg,
           { st with users := some (l₁ ++ ({ u with password := q }) :: l₂),
                     resetToken := none }) := by
  have hv : validateResetToken st rd.token now = (Except.ok rd.email, st) := by
    simp [validateResetToken, hslot, hexp]
  obtain ⟨w, hw, hwm⟩ := hmem
  obtain ⟨u0, hfind⟩ :=
    find?_isSome_of_mem (p := fun v => emailMatches v rd.email) (getUsers st) w hw hwm
  obtain ⟨l₁, l₂, hdec, hl₁, hupd⟩ :=
    updateFirstPassword_of_find? rd.email q (getUsers st) u0 hfind
  have hres := resetPassword_of_validate_ok st st rd.token q rd.email now hv
  rw [hupd] at hres
  have hres' : resetPassword st rd.token q now =
      (Except.ok passwordChangedMsg,
       { st with users := some (l₁ ++ ({ u0 with password := q }) :: l₂),
                 resetToken := none }) := hres
  exact ⟨l₁, u0, l₂, hdec,
    List.find?_some (p := fun v => emailMatches v rd.email) hfind, hres'⟩

/-- Witness for C10: the empty string — which fails all five strength
requirements — is accepted as a new password on `sampleResetStore`. -/
theorem C10_reset_no_validation_witness :
    ∃ l₁ u l₂,
      getUsers sampleResetStore = l₁ ++ u :: l₂
      ∧ emailMatches u "user@example.com" = true
      ∧ resetPassword sampleResetStore "tok" "" 500 =
          (Except.ok passwordChangedMsg,
           { sampleResetStore with
               users := some (l₁ ++ ({ u with password := "" }) :: l₂),
               resetToken := none }) :=
  C10_reset_no_validation sampleResetStore ⟨"user@example.com", "tok", 1000⟩
    "" 500 (by rfl) (by decide)
    ⟨⟨"user@example.com", "User@123", "Attendee", "normal", "Emily Davis"⟩,
      by decide, by decide⟩

end NexusAuth

